import Mathlib

/-!
Shallow embedding of `src/espresso.py` (the Espresso bootstrapping algorithm).

Modelling conventions:
* Python floats are modelled as `ℚ` (the claims under study are about the
  structure of the formulas, error behaviour and ordering, not float rounding).
* Python division raises `ZeroDivisionError` on a zero denominator (also for
  floats); this is modelled by `pydiv`, returning `Except PyErr ℚ`.
* An `Instance` is an ordered tuple of argument strings, modelled as
  `List String`; a `Pattern` is a string.
* The external MongoDB collections `<matrix>_<rel>_esp_i` / `<matrix>_<rel>_esp_p`
  are modelled as lists of records in the store's natural order; pymongo's
  `find_one` (no sort argument) returns the first matching document in natural
  order, or `None` when there is no match, and raises when the store is
  unavailable.  The `db_available` flag models store I/O failure.
* The external PMI provider (`matrix2pmi.PMI`) is a read-only numeric oracle;
  its `dpmi` function and the constant `max_pmi` are carried as fields of the
  `Espresso` structure, exactly as `self.pmi` / `self.max_pmi` in `__init__`.
* A Python list comprehension `[f(x) for x in xs]` whose body may raise is
  modelled by `mapE`: elements are evaluated left to right and the first
  exception propagates.
-/

/-- Python exceptions relevant to the embedded code: `ZeroDivisionError`
raised by `/` on a zero denominator, and any exception raised by a store
query (`pymongo` I/O failure). -/
inductive PyErr where
  | zeroDivision
  | storeFailure
deriving DecidableEq, Repr

/-- Python division: `a / b` raises `ZeroDivisionError` when `b = 0`
(also for floats), otherwise returns the quotient. -/
def pydiv (a b : ℚ) : Except PyErr ℚ :=
  if b = 0 then .error .zeroDivision else .ok (a / b)

/-- A Python list comprehension whose body may raise: elements are evaluated
left to right and the first exception aborts the whole comprehension. -/
def mapE (f : α → Except PyErr β) : List α → Except PyErr (List β)
  | [] => .ok []
  | a :: as => do
    let b ← f a
    let bs ← mapE f as
    pure (b :: bs)

/-- An instance: an ordered tuple of argument strings. -/
abbrev Instance := List String

/-- A pattern: a single string identifier. -/
abbrev Pattern := String

/-- A document of the pattern-score collection `<matrix>_<rel>_esp_p`, as
written by `rank_patterns`: `{'rel': p, 'it': it, 'score': s}`. -/
structure PatternRecord where
  rel : Pattern
  it : ℤ
  score : ℚ
deriving DecidableEq, Repr

/-- A document of the instance-score collection `<matrix>_<rel>_esp_i`, as
written by `rank_instances`: the instance tuple flattened into positional
fields `arg1 .. argn` (modelled as the ordered list `args`), plus `'it'` and
`'score'`. -/
structure InstanceRecord where
  args : Instance
  it : ℤ
  score : ℚ
deriving DecidableEq, Repr

/-- The state of an `Espresso` object that the scoring methods read:
the two store collections (in natural order), store availability, and the
external PMI provider (`self.pmi.dpmi` and `self.max_pmi`). -/
structure Espresso where
  boot_i : List InstanceRecord
  boot_p : List PatternRecord
  db_available : Bool
  dpmi : Instance → Pattern → ℚ
  max_pmi : ℚ

/-- The store query issued by `_r_i`:
`self.db[self.boot_i].find_one(make_query(i=i, p=None), fields=['score'])`.
The partial-match query filters on the instance's identifying fields
(`arg1..argn`) only; pymongo `find_one` returns the first match in the
store's natural order, `None` if there is none, and raises on I/O failure. -/
def Espresso.find_one_i (self : Espresso) (i : Instance) :
    Except PyErr (Option InstanceRecord) :=
  if self.db_available then
    .ok (self.boot_i.find? (fun r => r.args == i))
  else
    .error .storeFailure

/-- The store query issued by `_r_p`:
`self.db[self.boot_p].find_one(make_query(i=None, p=p), fields=['score'])`. -/
def Espresso.find_one_p (self : Espresso) (p : Pattern) :
    Except PyErr (Option PatternRecord) :=
  if self.db_available then
    .ok (self.boot_p.find? (fun r => r.rel == p))
  else
    .error .storeFailure

/-- `_r_i(self, i)`: retrieves `r_i` for a past iteration.  The body is
wrapped in `try: ... except Exception: return 0.0`, so a `None` result
(whose `.get` raises `AttributeError`) and a store failure both fall back
to `0.0`; a found record yields `r.get('score', 0.0)`, its score field. -/
def Espresso._r_i (self : Espresso) (i : Instance) : ℚ :=
  match self.find_one_i i with
  | .ok (some r) => r.score
  | .ok none => 0
  | .error _ => 0

/-- `_r_p(self, p)`: retrieves `r_p` for a past iteration, with the same
catch-all fallback to `0.0` as `_r_i`. -/
def Espresso._r_p (self : Espresso) (p : Pattern) : ℚ :=
  match self.find_one_p p with
  | .ok (some r) => r.score
  | .ok none => 0
  | .error _ => 0

/-- `r_i(self, i, P)`: reliability of instance `i`,
`sum([dpmi(i,p) * _r_p(p) / max_pmi for p in P]) / len(P)`.
Each division may raise `ZeroDivisionError` (so for `len(P) = 0` the final
division raises).  The `print` to stderr is observability only and is not
modelled. -/
def Espresso.r_i (self : Espresso) (i : Instance) (P : List Pattern) :
    Except PyErr ℚ := do
  let ts ← mapE (fun p => pydiv (self.dpmi i p * self._r_p p) self.max_pmi) P
  pydiv ts.sum (P.length : ℚ)

/-- `r_p(self, I, p)`: reliability of pattern `p`,
`sum([dpmi(i,p) * _r_i(i) / max_pmi for i in I]) / len(I)`. -/
def Espresso.r_p (self : Espresso) (I : List Instance) (p : Pattern) :
    Except PyErr ℚ := do
  let ts ← mapE (fun i => pydiv (self.dpmi i p * self._r_i i) self.max_pmi) I
  pydiv ts.sum (I.length : ℚ)

/-- `S(self, i, P)`: confidence in an instance.
`T = sum([_r_p(p) for p in P])` never raises; then
`sum([dpmi(i,p) * _r_p(p) / T for p in P])`, where each term divides by `T`
(raising `ZeroDivisionError` when `T = 0` and `P` is non-empty; for an empty
`P` the comprehension is empty and the sum is `0`). -/
def Espresso.S (self : Espresso) (i : Instance) (P : List Pattern) :
    Except PyErr ℚ := do
  let T := (P.map (fun p => self._r_p p)).sum
  let ts ← mapE (fun p => pydiv (self.dpmi i p * self._r_p p) T) P
  pure ts.sum

/-- Python `rs.sort(key=key, reverse=True)`: a stable sort that orders the
list by key descending; elements with equal keys keep their relative order
(CPython reverse-sorts by inverting the comparison, not by reversing the
list, so stability is preserved). -/
def pySortDesc (key : α → ℚ) (l : List α) : List α :=
  l.mergeSort (fun a b => decide (key b ≤ key a))

/-- The record built by `rank_patterns` for one candidate pattern:
`{'rel': p, 'it': it, 'score': self.r_p(I, p)}` (the `r_p` call may raise). -/
def Espresso.pattern_row (self : Espresso) (I : List Instance) (it : ℤ)
    (p : Pattern) : Except PyErr PatternRecord := do
  let s ← self.r_p I p
  pure { rel := p, it := it, score := s }

/-- `rank_patterns(self, I, P, it)`: builds one record per candidate pattern
(in candidate order), then sorts in place with
`rs.sort(key=lambda r: r.get('score', 0.0), reverse=True)` (every row has a
score field, so the key is its `score`). -/
def Espresso.rank_patterns (self : Espresso) (I : List Instance)
    (P : List Pattern) (it : ℤ) : Except PyErr (List PatternRecord) := do
  let rs ← mapE (self.pattern_row I it) P
  pure (pySortDesc (fun r => r.score) rs)

/-- The record built by `rank_instances` for one candidate instance: the
tuple flattened into `arg1..argn` by `enumerate(i, 1)` in argument order
(modelled by keeping the ordered tuple as `args`), plus `'it'` and
`'score': self.r_i(i, P)`. -/
def Espresso.instance_row (self : Espresso) (P : List Pattern) (it : ℤ)
    (i : Instance) : Except PyErr InstanceRecord := do
  let s ← self.r_i i P
  pure { args := i, it := it, score := s }

/-- `rank_instances(self, I, P, it)`: builds one record per candidate
instance (in candidate order), then applies the same stable descending
in-place sort by score. -/
def Espresso.rank_instances (self : Espresso) (I : List Instance)
    (P : List Pattern) (it : ℤ) : Except PyErr (List InstanceRecord) := do
  let rs ← mapE (self.instance_row P it) I
  pure (pySortDesc (fun r => r.score) rs)

/-- Modelled from the spec (section 6 lookup contract), as a refinement
comparison point for the store lookup in `_r_p`: `findLatestScore(key)`
sorts the records matching `key` by `iteration` descending and takes the
first, falling back to `0.0` when no record exists. -/
def Espresso.findLatestScore_p (self : Espresso) (p : Pattern) : ℚ :=
  match (self.boot_p.filter (fun r => r.rel == p)).mergeSort
      (fun a b => decide (b.it ≤ a.it)) with
  | [] => 0
  | r :: _ => r.score

/-- The seed-file computation of `main()`: after `parser.parse_args()`,
`main` exits with usage unless there are exactly three positional
arguments (`if len(args) != 3`), then sets `db_, matrix, rel = args[:3]`
and `files = args[4:]`; `files` is handed to `fileinput.input`, which
reads standard input when the file list is empty. -/
def main_files (args : List String) : Option (List String) :=
  if args.length = 3 then some (args.drop 4) else none

/-! Concrete states used to exercise the functions on explicit inputs.
These mirror the end-to-end scenario of the design document: seed instance
`("paris", "france")`, candidate pattern `"X is the capital of Y"`,
`dpmi = 2.0`, `max_pmi = 4.0`. -/

/-- A store after iteration 1 of the capital-of scenario: the seed instance
has score `1.0` and the promoted pattern has score `0.5`. -/
def demoE : Espresso where
  boot_i := [{ args := ["paris", "france"], it := 0, score := 1 }]
  boot_p := [{ rel := "X is the capital of Y", it := 1, score := 1/2 }]
  db_available := true
  dpmi := fun _ _ => 2
  max_pmi := 4

/-- A store holding two records for the same pattern key `"q"`, the older
iteration first in natural order: iteration 1 with score `0.3`, then
iteration 2 with score `0.7`. -/
def E2 : Espresso where
  boot_i := []
  boot_p := [{ rel := "q", it := 1, score := 3/10 },
             { rel := "q", it := 2, score := 7/10 }]
  db_available := true
  dpmi := fun _ _ => 0
  max_pmi := 1

/-- A fresh store with no history at all. -/
def E4 : Espresso where
  boot_i := []
  boot_p := []
  db_available := true
  dpmi := fun _ _ => 2
  max_pmi := 4

/-- A store that is unavailable: every query raises, even though a record
for pattern `"q"` is persisted. -/
def E5 : Espresso where
  boot_i := []
  boot_p := [{ rel := "q", it := 1, score := 1/2 }]
  db_available := false
  dpmi := fun _ _ => 0
  max_pmi := 1

/-- A state realising the design document's stable-sort scenario: three
candidate patterns scoring `[0.5, 0.8, 0.5]` in input order. -/
def tieE : Espresso where
  boot_i := [{ args := ["x"], it := 0, score := 1 }]
  boot_p := []
  db_available := true
  dpmi := fun _ p => if p = "a" then 1/2 else if p = "b" then 4/5 else 1/2
  max_pmi := 1

/-! Helper lemmas about the embedding combinators. -/

theorem ok_bind (a : α) (f : α → Except PyErr β) : (Except.ok a >>= f) = f a := rfl

theorem error_bind (e : PyErr) (f : α → Except PyErr β) :
    ((Except.error e : Except PyErr α) >>= f) = Except.error e := rfl

theorem ok_map (g : α → β) (a : α) :
    (g <$> (Except.ok a : Except PyErr α)) = .ok (g a) := rfl

theorem error_map (g : α → β) (e : PyErr) :
    (g <$> (Except.error e : Except PyErr α)) = .error e := rfl

theorem pydiv_zero (a : ℚ) : pydiv a 0 = .error .zeroDivision := by
  simp [pydiv]

theorem pydiv_ok (a : ℚ) {b : ℚ} (h : b ≠ 0) : pydiv a b = .ok (a / b) := by
  simp [pydiv, h]

theorem mapE_cons_error {f : α → Except PyErr β} {a : α} {e : PyErr}
    (h : f a = .error e) (l : List α) : mapE f (a :: l) = .error e := by
  simp only [mapE, h]
  rfl

theorem mapE_ok_of_forall {f : α → Except PyErr β} {g : α → β} :
    ∀ {l : List α}, (∀ a ∈ l, f a = .ok (g a)) → mapE f l = .ok (l.map g)
  | [], _ => rfl
  | a :: l, h => by
    have ha := h a (List.mem_cons_self a l)
    have hl := mapE_ok_of_forall (fun x hx => h x (List.mem_cons_of_mem a hx))
    simp only [mapE, ha, hl, List.map_cons]
    rfl

theorem mapE_mem {f : α → Except PyErr β} :
    ∀ {l : List α} {ys : List β}, mapE f l = .ok ys →
      ∀ y ∈ ys, ∃ a ∈ l, f a = .ok y := by
  intro l
  induction l with
  | nil =>
    intro ys h y hy
    simp only [mapE] at h
    cases h
    simp at hy
  | cons a l ih =>
    intro ys h y hy
    simp only [mapE] at h
    cases hfa : f a with
    | error e =>
      rw [hfa] at h
      exact Except.noConfusion h
    | ok b =>
      rw [hfa] at h
      cases hrest : mapE f l with
      | error e =>
        rw [hrest] at h
        exact Except.noConfusion h
      | ok bs =>
        rw [hrest] at h
        have h2 : Except.ok (ε := PyErr) (b :: bs) = Except.ok ys := h
        injection h2 with h3
        subst h3
        rcases List.mem_cons.mp hy with hyb | hybs
        · exact ⟨a, List.mem_cons_self a l, hyb ▸ hfa⟩
        · obtain ⟨x, hx, hfx⟩ := ih hrest y hybs
          exact ⟨x, List.mem_cons_of_mem a hx, hfx⟩

theorem pySortDesc_perm (key : α → ℚ) (l : List α) :
    (pySortDesc key l).Perm l :=
  List.mergeSort_perm l _

theorem pySortDesc_sorted (key : α → ℚ) (l : List α) :
    (pySortDesc key l).Pairwise (fun a b => key b ≤ key a) := by
  have h : (pySortDesc key l).Pairwise
      (fun a b => decide (key b ≤ key a) = true) := by
    apply List.sorted_mergeSort
    · intro a b c hab hbc
      simp only [decide_eq_true_eq] at *
      exact le_trans hbc hab
    · intro a b
      simp [le_total]
  exact h.imp (fun h => by simpa using h)

theorem pySortDesc_filter (key : α → ℚ) (l : List α) (c : ℚ) :
    (pySortDesc key l).filter (fun a => decide (key a = c)) =
      l.filter (fun a => decide (key a = c)) := by
  have hall : ∀ a ∈ l.filter (fun a => decide (key a = c)), key a = c := by
    intro a ha
    simpa using (List.mem_filter.mp ha).2
  have hpw : (l.filter (fun a => decide (key a = c))).Pairwise
      (fun a b => decide (key b ≤ key a) = true) := by
    apply List.pairwise_of_forall_mem_list
    intro a ha b hb
    simp [hall a ha, hall b hb]
  have hsub : List.Sublist (l.filter (fun a => decide (key a = c)))
      (pySortDesc key l) := by
    unfold pySortDesc
    apply List.sublist_mergeSort
    · intro a b c' hab hbc
      simp only [decide_eq_true_eq] at *
      exact le_trans hbc hab
    · intro a b
      simp [le_total]
    · exact hpw
    · exact List.filter_sublist l
  have hsub2 := hsub.filter (fun a => decide (key a = c))
  rw [List.filter_eq_self.mpr (fun a ha => by simpa using hall a ha)] at hsub2
  have hlen : ((pySortDesc key l).filter (fun a => decide (key a = c))).length =
      (l.filter (fun a => decide (key a = c))).length :=
    ((pySortDesc_perm key l).filter _).length_eq
  exact (hsub2.eq_of_length hlen.symm).symm

/-! Value-level characterisations of the scorer. -/

theorem r_i_ok (E : Espresso) (i : Instance) {P : List Pattern}
    (hP : P ≠ []) (hm : E.max_pmi ≠ 0) :
    E.r_i i P =
      .ok ((P.map (fun p => E.dpmi i p * E._r_p p / E.max_pmi)).sum /
        (P.length : ℚ)) := by
  have hmap : mapE (fun p => pydiv (E.dpmi i p * E._r_p p) E.max_pmi) P =
      .ok (P.map (fun p => E.dpmi i p * E._r_p p / E.max_pmi)) :=
    mapE_ok_of_forall (fun p _ => pydiv_ok _ hm)
  have hlen : ((P.length : ℕ) : ℚ) ≠ 0 :=
    Nat.cast_ne_zero.mpr (fun h => hP (List.length_eq_zero.mp h))
  unfold Espresso.r_i
  rw [hmap, ok_bind]
  exact pydiv_ok _ hlen

theorem r_p_ok (E : Espresso) (p : Pattern) {I : List Instance}
    (hI : I ≠ []) (hm : E.max_pmi ≠ 0) :
    E.r_p I p =
      .ok ((I.map (fun i => E.dpmi i p * E._r_i i / E.max_pmi)).sum /
        (I.length : ℚ)) := by
  have hmap : mapE (fun i => pydiv (E.dpmi i p * E._r_i i) E.max_pmi) I =
      .ok (I.map (fun i => E.dpmi i p * E._r_i i / E.max_pmi)) :=
    mapE_ok_of_forall (fun i _ => pydiv_ok _ hm)
  have hlen : ((I.length : ℕ) : ℚ) ≠ 0 :=
    Nat.cast_ne_zero.mpr (fun h => hI (List.length_eq_zero.mp h))
  unfold Espresso.r_p
  rw [hmap, ok_bind]
  exact pydiv_ok _ hlen

theorem r_i_maxpmi_zero (E : Espresso) (i : Instance) {P : List Pattern}
    (hP : P ≠ []) (hm : E.max_pmi = 0) :
    E.r_i i P = .error .zeroDivision := by
  obtain ⟨p, Ptl, rfl⟩ := List.exists_cons_of_ne_nil hP
  have h : pydiv (E.dpmi i p * E._r_p p) E.max_pmi = .error .zeroDivision := by
    rw [hm]; exact pydiv_zero _
  unfold Espresso.r_i
  rw [mapE_cons_error (f := fun q => pydiv (E.dpmi i q * E._r_p q) E.max_pmi)
    h Ptl, error_bind]

theorem pattern_row_ok {E : Espresso} {I : List Instance} {it : ℤ}
    {p : Pattern} {r : PatternRecord} (h : E.pattern_row I it p = .ok r) :
    E.r_p I p = .ok r.score ∧ r = { rel := p, it := it, score := r.score } := by
  unfold Espresso.pattern_row at h
  cases hs : E.r_p I p with
  | error e =>
    rw [hs, error_bind] at h
    exact Except.noConfusion h
  | ok s =>
    rw [hs, ok_bind] at h
    have h2 : Except.ok (ε := PyErr)
        ({ rel := p, it := it, score := s } : PatternRecord) = .ok r := h
    injection h2 with h3
    subst h3
    exact ⟨rfl, rfl⟩

theorem instance_row_ok {E : Espresso} {P : List Pattern} {it : ℤ}
    {i : Instance} {r : InstanceRecord} (h : E.instance_row P it i = .ok r) :
    E.r_i i P = .ok r.score ∧ r = { args := i, it := it, score := r.score } := by
  unfold Espresso.instance_row at h
  cases hs : E.r_i i P with
  | error e =>
    rw [hs, error_bind] at h
    exact Except.noConfusion h
  | ok s =>
    rw [hs, ok_bind] at h
    have h2 : Except.ok (ε := PyErr)
        ({ args := i, it := it, score := s } : InstanceRecord) = .ok r := h
    injection h2 with h3
    subst h3
    exact ⟨rfl, rfl⟩

theorem rank_patterns_inv {E : Espresso} {I : List Instance} {P : List Pattern}
    {it : ℤ} {rs : List PatternRecord}
    (h : E.rank_patterns I P it = .ok rs) :
    ∃ rows, mapE (E.pattern_row I it) P = .ok rows ∧
      rs = pySortDesc (fun r => r.score) rows := by
  unfold Espresso.rank_patterns at h
  cases hm : mapE (E.pattern_row I it) P with
  | error e =>
    rw [hm, error_bind] at h
    exact Except.noConfusion h
  | ok rows =>
    rw [hm, ok_bind] at h
    have h3 : Except.ok (ε := PyErr) (pySortDesc (fun r => r.score) rows) =
        .ok rs := h
    injection h3 with h4
    exact ⟨rows, rfl, h4.symm⟩

theorem rank_instances_inv {E : Espresso} {I : List Instance} {P : List Pattern}
    {it : ℤ} {qs : List InstanceRecord}
    (h : E.rank_instances I P it = .ok qs) :
    ∃ rows, mapE (E.instance_row P it) I = .ok rows ∧
      qs = pySortDesc (fun r => r.score) rows := by
  unfold Espresso.rank_instances at h
  cases hm : mapE (E.instance_row P it) I with
  | error e =>
    rw [hm, error_bind] at h
    exact Except.noConfusion h
  | ok rows =>
    rw [hm, ok_bind] at h
    have h3 : Except.ok (ε := PyErr) (pySortDesc (fun r => r.score) rows) =
        .ok qs := h
    injection h3 with h4
    exact ⟨rows, rfl, h4.symm⟩

/-! Claim theorems. -/

/-- Claim C1: for every instance `i` and non-empty promoted pattern list `P`,
`r_i` returns `(Σ_{p ∈ P} dpmi(i,p) · pastPatternScore(p) / maxPmi) / |P|`,
and symmetrically `r_p` returns
`(Σ_{i ∈ I} dpmi(i,p) · pastInstanceScore(i) / maxPmi) / |I|` for every
pattern `p` and non-empty promoted instance list `I` (with the provider's
normalizer `max_pmi` nonzero, as any corpus-wide maximum divisor must be). -/
theorem c1_reliability_formula (E : Espresso) (i : Instance) (p : Pattern)
    (I : List Instance) (P : List Pattern)
    (hP : P ≠ []) (hI : I ≠ []) (hm : E.max_pmi ≠ 0) :
    E.r_i i P =
      .ok ((P.map (fun q => E.dpmi i q * E._r_p q / E.max_pmi)).sum /
        (P.length : ℚ)) ∧
    E.r_p I p =
      .ok ((I.map (fun j => E.dpmi j p * E._r_i j / E.max_pmi)).sum /
        (I.length : ℚ)) :=
  ⟨r_i_ok E i hP hm, r_p_ok E p hI hm⟩

/-- Witness for C1: in the capital-of scenario, the instance reliability is
`(2 · 0.5 / 4) / 1 = 0.25` and the pattern reliability is `(2 · 1 / 4) / 1 = 0.5`. -/
theorem c1_reliability_formula_witness :
    demoE.r_i ["paris", "france"] ["X is the capital of Y"] = .ok (1/4) ∧
    demoE.r_p [["paris", "france"]] "X is the capital of Y" = .ok (1/2) := by
  have h := c1_reliability_formula demoE ["paris", "france"]
    "X is the capital of Y" [["paris", "france"]] ["X is the capital of Y"]
    (by decide) (by decide) (by decide)
  refine ⟨?_, ?_⟩
  · rw [h.1]
    norm_num [demoE, Espresso._r_p, Espresso.find_one_p]
  · rw [h.2]
    norm_num [demoE, Espresso._r_i, Espresso.find_one_i]

/-- Claim C3: calling `r_i` with an empty pattern list, or `r_p` with an
empty instance list, raises the typed `ZeroDivisionError` (the
`PreconditionViolation` of the design's error taxonomy) from the division
by `len(P) = 0`; it never silently returns a value. -/
theorem c3_empty_set_raises (E : Espresso) (i : Instance) (p : Pattern) :
    E.r_i i [] = .error PyErr.zeroDivision ∧
    E.r_p [] p = .error PyErr.zeroDivision :=
  ⟨rfl, rfl⟩

/-- Claim C8: a pattern with no prior persisted record (and symmetrically an
instance with no prior record) gets past score `0.0` from the lookup, with
no error raised: the `find_one` returns `None` and the handler resolves it
to `0.0`. -/
theorem c8_missing_history_zero (E : Espresso) (i : Instance) (p : Pattern)
    (ha : E.db_available = true)
    (hp : ∀ r ∈ E.boot_p, r.rel ≠ p)
    (hi : ∀ r ∈ E.boot_i, r.args ≠ i) :
    E._r_p p = 0 ∧ E._r_i i = 0 := by
  have h1 : E.boot_p.find? (fun r => r.rel == p) = none :=
    List.find?_eq_none.mpr (fun r hr => by simpa using hp r hr)
  have h2 : E.boot_i.find? (fun r => r.args == i) = none :=
    List.find?_eq_none.mpr (fun r hr => by simpa using hi r hr)
  constructor
  · simp [Espresso._r_p, Espresso.find_one_p, ha, h1]
  · simp [Espresso._r_i, Espresso.find_one_i, ha, h2]

/-- Witness for C8: on the fresh store `E4` both lookups return `0.0`. -/
theorem c8_missing_history_zero_witness :
    E4._r_p "never seen" = 0 ∧ E4._r_i ["new", "pair"] = 0 :=
  c8_missing_history_zero E4 ["new", "pair"] "never seen" rfl
    (by simp [E4]) (by simp [E4])

/-- Claim C9: `r_i` is invariant under permutation of the promoted pattern
list `P` (the sum is commutative and the length is permutation-invariant;
in the degenerate `max_pmi = 0` corner both runs raise the same error). -/
theorem c9_perm_invariant (E : Espresso) (i : Instance) (P Q : List Pattern)
    (hP : P ≠ []) (hperm : P.Perm Q) : E.r_i i P = E.r_i i Q := by
  have hQ : Q ≠ [] := by
    intro h
    apply hP
    have hlen := hperm.length_eq
    rw [h] at hlen
    exact List.length_eq_zero.mp hlen
  by_cases hm : E.max_pmi = 0
  · rw [r_i_maxpmi_zero E i hP hm, r_i_maxpmi_zero E i hQ hm]
  · rw [r_i_ok E i hP hm, r_i_ok E i hQ hm]
    have hsum := (hperm.map (fun q => E.dpmi i q * E._r_p q / E.max_pmi)).sum_eq
    rw [hsum, hperm.length_eq]

/-- Witness for C9: reordering two promoted patterns leaves the instance
reliability unchanged. -/
theorem c9_perm_invariant_witness :
    demoE.r_i ["paris", "france"] ["a", "b"] =
      demoE.r_i ["paris", "france"] ["b", "a"] :=
  c9_perm_invariant demoE ["paris", "france"] ["a", "b"] ["b", "a"]
    (by decide) (by decide)

/-- Claim C10: when `main` passes argument validation (exactly three
positional arguments), the seed-file list handed to `fileinput.input` is
`args[4:]`, which is always empty, so seeds can only come from standard
input. -/
theorem c10_seed_files_empty (args : List String) (fs : List String)
    (h : main_files args = some fs) : fs = args.drop 4 ∧ fs = [] := by
  unfold main_files at h
  by_cases h3 : args.length = 3
  · rw [if_pos h3] at h
    injection h with h4
    subst h4
    refine ⟨rfl, ?_⟩
    apply List.drop_eq_nil_of_le
    omega
  · rw [if_neg h3] at h
    exact Option.noConfusion h

/-- Witness for C10: the three-argument invocation yields an empty seed-file
list. -/
theorem c10_seed_files_empty_witness :
    main_files ["db", "matrix", "rel"] = some [] ∧
    (([] : List String) = (["db", "matrix", "rel"] : List String).drop 4 ∧
      ([] : List String) = []) :=
  ⟨rfl, c10_seed_files_empty ["db", "matrix", "rel"] [] rfl⟩

/-- Claim C2 (refuted by the code): on store `E2`, which holds two records
for pattern `"q"` with the older iteration first in natural order, the
lookup `_r_p` used by the reliability functions returns the first
store-order match (iteration 1, score `0.3`) and not the record with the
greatest iteration (iteration 2, score `0.7`) that the spec-side
`findLatestScore` contract produces. -/
theorem c2_lookup_returns_stale_record :
    E2._r_p "q" = 3/10 ∧
    E2.findLatestScore_p "q" = 7/10 ∧
    (3/10 : ℚ) ≠ 7/10 := by
  refine ⟨rfl, ?_, by norm_num⟩
  simp +decide [Espresso.findLatestScore_p, E2, List.mergeSort, List.merge]

/-- Claim C4 counterexample: with the empty pattern set, `T = 0` and yet
`S` silently returns `0.0` instead of raising — the comprehension is empty,
so the division by `T` is never executed. -/
theorem c4_counterexample :
    (([] : List Pattern).map (fun p => E4._r_p p)).sum = 0 ∧
    E4.S ["paris", "france"] [] = .ok 0 :=
  ⟨rfl, rfl⟩

/-- Claim C4 amended: for a NON-EMPTY pattern list with `T = 0`, `S` raises
the typed `ZeroDivisionError`; whenever `T ≠ 0` it returns
`Σ_{p∈P} dpmi(i,p)·pastPatternScore(p) / T` (for the empty list, `T = 0`
yet `S` silently returns `0`, per the counterexample). -/
theorem c4_confidence_amended (E : Espresso) (i : Instance) (P : List Pattern) :
    (P ≠ [] → (P.map (fun p => E._r_p p)).sum = 0 →
      E.S i P = .error PyErr.zeroDivision) ∧
    ((P.map (fun p => E._r_p p)).sum ≠ 0 →
      E.S i P = .ok ((P.map (fun p =>
        E.dpmi i p * E._r_p p / (P.map (fun q => E._r_p q)).sum)).sum)) := by
  constructor
  · intro hP hT
    obtain ⟨p, Ptl, rfl⟩ := List.exists_cons_of_ne_nil hP
    unfold Espresso.S
    rw [hT]
    show (do
      let ts ← mapE (fun q => pydiv (E.dpmi i q * E._r_p q) 0) (p :: Ptl)
      pure ts.sum : Except PyErr ℚ) = .error PyErr.zeroDivision
    rw [mapE_cons_error (f := fun q => pydiv (E.dpmi i q * E._r_p q) 0)
      (pydiv_zero _) Ptl, error_bind]
  · intro hT
    unfold Espresso.S
    show (do
      let ts ← mapE (fun p => pydiv (E.dpmi i p * E._r_p p)
        ((P.map (fun p => E._r_p p)).sum)) P
      pure ts.sum : Except PyErr ℚ) = _
    rw [mapE_ok_of_forall (fun p _ => pydiv_ok (E.dpmi i p * E._r_p p) hT),
      ok_bind]
    rfl

/-- Witness for the amended C4: on the fresh store every past score is `0`,
so `T = 0` and `S` raises; in the capital-of scenario `T = 0.5` and
`S = 2 · 0.5 / 0.5 = 2`. -/
theorem c4_confidence_amended_witness :
    E4.S ["paris", "france"] ["q"] = .error PyErr.zeroDivision ∧
    demoE.S ["paris", "france"] ["X is the capital of Y"] = .ok 2 := by
  constructor
  · exact (c4_confidence_amended E4 ["paris", "france"] ["q"]).1
      (by decide) (by norm_num [Espresso._r_p, Espresso.find_one_p, E4])
  · have h := (c4_confidence_amended demoE ["paris", "france"]
      ["X is the capital of Y"]).2
      (by norm_num [Espresso._r_p, Espresso.find_one_p, demoE])
    rw [h]
    norm_num [Espresso._r_p, Espresso.find_one_p, demoE]

/-- Claim C5 counterexample: on the unavailable store `E5` the query raises
(`find_one_p` is an error), yet `_r_p` absorbs the failure and returns
`0.0`, and the enclosing reliability computation succeeds with a misleading
score instead of surfacing the failure. -/
theorem c5_counterexample :
    E5.find_one_p "q" = .error PyErr.storeFailure ∧
    E5._r_p "q" = 0 ∧
    E5.r_i ["x"] ["q"] = .ok 0 := by
  refine ⟨rfl, rfl, ?_⟩
  norm_num [Espresso.r_i, mapE, pydiv, Espresso._r_p, Espresso.find_one_p, E5,
    ok_bind, error_bind, ok_map, error_map]

/-- Claim C5 amended: every store I/O failure during a past-score lookup is
caught by the catch-all `except` handler and resolves to score `0.0`,
indistinguishable from missing history; nothing is surfaced to the caller. -/
theorem c5_lookup_absorbs_failures (E : Espresso) (i : Instance) (p : Pattern)
    (h : E.db_available = false) :
    E.find_one_p p = .error PyErr.storeFailure ∧
    E.find_one_i i = .error PyErr.storeFailure ∧
    E._r_p p = 0 ∧ E._r_i i = 0 := by
  simp [Espresso.find_one_p, Espresso.find_one_i, Espresso._r_p,
    Espresso._r_i, h]

/-- Witness for the amended C5. -/
theorem c5_lookup_absorbs_failures_witness :
    E5.find_one_p "q" = .error PyErr.storeFailure ∧
    E5.find_one_i ["x"] = .error PyErr.storeFailure ∧
    E5._r_p "q" = 0 ∧ E5._r_i ["x"] = 0 :=
  c5_lookup_absorbs_failures E5 ["x"] "q" rfl

/-- Claim C6: whenever `rank_patterns` / `rank_instances` return a list, it
is sorted in descending order of score, and the sort is stable: for every
score value, the records carrying that score appear in the same relative
order as the rows built from the candidate input list (which `mapE`
produces in candidate order). -/
theorem c6_rank_sorted_stable (E : Espresso) (I : List Instance)
    (P : List Pattern) (it : ℤ)
    (rows_p rs : List PatternRecord) (rows_i qs : List InstanceRecord)
    (hp : mapE (E.pattern_row I it) P = .ok rows_p)
    (hq : mapE (E.instance_row P it) I = .ok rows_i)
    (h1 : E.rank_patterns I P it = .ok rs)
    (h2 : E.rank_instances I P it = .ok qs) :
    rs.Pairwise (fun a b => b.score ≤ a.score) ∧
    qs.Pairwise (fun a b => b.score ≤ a.score) ∧
    (∀ c : ℚ, rs.filter (fun r => decide (r.score = c)) =
      rows_p.filter (fun r => decide (r.score = c))) ∧
    (∀ c : ℚ, qs.filter (fun r => decide (r.score = c)) =
      rows_i.filter (fun r => decide (r.score = c))) := by
  obtain ⟨rows, hrows, hsort⟩ := rank_patterns_inv h1
  rw [hp] at hrows
  injection hrows with hrows
  subst hrows
  obtain ⟨rows, hrows, hsort2⟩ := rank_instances_inv h2
  rw [hq] at hrows
  injection hrows with hrows
  subst hrows
  subst hsort hsort2
  exact ⟨pySortDesc_sorted _ _, pySortDesc_sorted _ _,
    fun c => pySortDesc_filter _ _ c, fun c => pySortDesc_filter _ _ c⟩

/-- Witness for C6: the design document's stable-sort scenario — candidate
patterns scoring `[0.5, 0.8, 0.5]` in input order rank as `[b, a, c]`, the
tied `0.5` entries keeping their input order. -/
theorem c6_rank_sorted_stable_witness :
    (mapE (tieE.pattern_row [["x"]] 1) ["a", "b", "c"] =
       .ok [{ rel := "a", it := 1, score := 1/2 },
            { rel := "b", it := 1, score := 4/5 },
            { rel := "c", it := 1, score := 1/2 }] ∧
     mapE (tieE.instance_row ["a", "b", "c"] 1) [["x"]] =
       .ok [{ args := ["x"], it := 1, score := 0 }] ∧
     tieE.rank_patterns [["x"]] ["a", "b", "c"] 1 =
       .ok [{ rel := "b", it := 1, score := 4/5 },
            { rel := "a", it := 1, score := 1/2 },
            { rel := "c", it := 1, score := 1/2 }] ∧
     tieE.rank_instances [["x"]] ["a", "b", "c"] 1 =
       .ok [{ args := ["x"], it := 1, score := 0 }]) ∧
    (List.Pairwise (fun a b : PatternRecord => b.score ≤ a.score)
       [{ rel := "b", it := 1, score := 4/5 },
        { rel := "a", it := 1, score := 1/2 },
        { rel := "c", it := 1, score := 1/2 }] ∧
     List.Pairwise (fun a b : InstanceRecord => b.score ≤ a.score)
       [{ args := ["x"], it := 1, score := 0 }] ∧
     (∀ c : ℚ, List.filter (fun r : PatternRecord => decide (r.score = c))
         [{ rel := "b", it := 1, score := 4/5 },
          { rel := "a", it := 1, score := 1/2 },
          { rel := "c", it := 1, score := 1/2 }] =
       List.filter (fun r : PatternRecord => decide (r.score = c))
         [{ rel := "a", it := 1, score := 1/2 },
          { rel := "b", it := 1, score := 4/5 },
          { rel := "c", it := 1, score := 1/2 }]) ∧
     (∀ c : ℚ, List.filter (fun r : InstanceRecord => decide (r.score = c))
         [{ args := ["x"], it := 1, score := 0 }] =
       List.filter (fun r : InstanceRecord => decide (r.score = c))
         [{ args := ["x"], it := 1, score := 0 }])) := by
  have hp : mapE (tieE.pattern_row [["x"]] 1) ["a", "b", "c"] =
      .ok [{ rel := "a", it := 1, score := 1/2 },
           { rel := "b", it := 1, score := 4/5 },
           { rel := "c", it := 1, score := 1/2 }] := by
    simp +decide [Espresso.pattern_row, Espresso.r_p, mapE, pydiv,
      Espresso._r_i, Espresso.find_one_i, tieE, ok_bind, error_bind, ok_map,
      error_map, pure, Except.pure]
  have hq : mapE (tieE.instance_row ["a", "b", "c"] 1) [["x"]] =
      .ok [{ args := ["x"], it := 1, score := 0 }] := by
    simp +decide [Espresso.instance_row, Espresso.r_i, mapE, pydiv,
      Espresso._r_p, Espresso.find_one_p, tieE, ok_bind, error_bind, ok_map,
      error_map, pure, Except.pure]
  have h1 : tieE.rank_patterns [["x"]] ["a", "b", "c"] 1 =
      .ok [{ rel := "b", it := 1, score := 4/5 },
           { rel := "a", it := 1, score := 1/2 },
           { rel := "c", it := 1, score := 1/2 }] := by
    simp +decide [Espresso.rank_patterns, Espresso.pattern_row, Espresso.r_p,
      mapE, pydiv, Espresso._r_i, Espresso.find_one_i, tieE, ok_bind,
      error_bind, ok_map, error_map, pySortDesc, List.mergeSort, List.merge,
      pure, Except.pure]
    norm_num [List.merge]
  have h2 : tieE.rank_instances [["x"]] ["a", "b", "c"] 1 =
      .ok [{ args := ["x"], it := 1, score := 0 }] := by
    simp +decide [Espresso.rank_instances, Espresso.instance_row,
      Espresso.r_i, mapE, pydiv, Espresso._r_p, Espresso.find_one_p, tieE,
      ok_bind, error_bind, ok_map, error_map, pySortDesc, List.mergeSort,
      List.merge, pure, Except.pure]
  exact ⟨⟨hp, hq, h1, h2⟩,
    c6_rank_sorted_stable tieE [["x"]] ["a", "b", "c"] 1 _ _ _ _ hp hq h1 h2⟩

/-- Claim C7: every record returned by `rank_patterns` is exactly
`{rel: p, it: k, score: r_p}` for some candidate pattern `p`, and every
record returned by `rank_instances` is exactly the instance tuple flattened
in argument order plus the iteration and the `r_i` score. -/
theorem c7_record_shape (E : Espresso) (I : List Instance) (P : List Pattern)
    (it : ℤ) (rs : List PatternRecord) (qs : List InstanceRecord)
    (h1 : E.rank_patterns I P it = .ok rs)
    (h2 : E.rank_instances I P it = .ok qs) :
    (∀ r ∈ rs, ∃ p ∈ P, E.r_p I p = .ok r.score ∧
      r = { rel := p, it := it, score := r.score }) ∧
    (∀ r ∈ qs, ∃ i ∈ I, E.r_i i P = .ok r.score ∧
      r = { args := i, it := it, score := r.score }) := by
  constructor
  · intro r hr
    obtain ⟨rows, hrows, hsort⟩ := rank_patterns_inv h1
    rw [hsort] at hr
    have hmem : r ∈ rows := (pySortDesc_perm _ rows).mem_iff.mp hr
    obtain ⟨p, hpP, hrow⟩ := mapE_mem hrows r hmem
    obtain ⟨hscore, hshape⟩ := pattern_row_ok hrow
    exact ⟨p, hpP, hscore, hshape⟩
  · intro r hr
    obtain ⟨rows, hrows, hsort⟩ := rank_instances_inv h2
    rw [hsort] at hr
    have hmem : r ∈ rows := (pySortDesc_perm _ rows).mem_iff.mp hr
    obtain ⟨i, hiI, hrow⟩ := mapE_mem hrows r hmem
    obtain ⟨hscore, hshape⟩ := instance_row_ok hrow
    exact ⟨i, hiI, hscore, hshape⟩

/-- Witness for C7: in the capital-of scenario the ranked pattern record is
`{pattern, iteration 1, score 0.5}` and the ranked instance record carries
the flattened tuple `("paris", "france")` with score `0.25`. -/
theorem c7_record_shape_witness :
    (demoE.rank_patterns [["paris", "france"]] ["X is the capital of Y"] 1 =
       .ok [{ rel := "X is the capital of Y", it := 1, score := 1/2 }] ∧
     demoE.rank_instances [["paris", "france"]] ["X is the capital of Y"] 1 =
       .ok [{ args := ["paris", "france"], it := 1, score := 1/4 }]) ∧
    ((∀ r ∈ [({ rel := "X is the capital of Y", it := 1, score := 1/2 } :
        PatternRecord)], ∃ p ∈ ["X is the capital of Y"],
        demoE.r_p [["paris", "france"]] p = .ok r.score ∧
        r = { rel := p, it := 1, score := r.score }) ∧
     (∀ r ∈ [({ args := ["paris", "france"], it := 1, score := 1/4 } :
        InstanceRecord)], ∃ i ∈ [["paris", "france"]],
        demoE.r_i i ["X is the capital of Y"] = .ok r.score ∧
        r = { args := i, it := 1, score := r.score })) := by
  have h1 : demoE.rank_patterns [["paris", "france"]]
      ["X is the capital of Y"] 1 =
      .ok [{ rel := "X is the capital of Y", it := 1, score := 1/2 }] := by
    norm_num [Espresso.rank_patterns, Espresso.pattern_row, Espresso.r_p,
      mapE, pydiv, Espresso._r_i, Espresso.find_one_i, demoE, ok_bind,
      error_bind, ok_map, error_map, pySortDesc, List.mergeSort, pure,
      Except.pure]
  have h2 : demoE.rank_instances [["paris", "france"]]
      ["X is the capital of Y"] 1 =
      .ok [{ args := ["paris", "france"], it := 1, score := 1/4 }] := by
    norm_num [Espresso.rank_instances, Espresso.instance_row, Espresso.r_i,
      mapE, pydiv, Espresso._r_p, Espresso.find_one_p, demoE, ok_bind,
      error_bind, ok_map, error_map, pySortDesc, List.mergeSort, pure,
      Except.pure]
  exact ⟨⟨h1, h2⟩, c7_record_shape demoE [["paris", "france"]]
    ["X is the capital of Y"] 1 _ _ h1 h2⟩
